import Mathlib

/-!
# Verification of the election_export reconciliation engines

Shallow embedding of the two core engines of the repository:

* the **Combiner** (`src/combine_vote_type_exports.py`), which merges
  per-vote-type CSV exports into one row-set keyed by
  `(state, county, precinct)`, detects conflicts in shared registration
  fields and coalesces type-dependent fields by a fixed priority order; and
* the **Differ**, in its CLI form (`src/diff_precinct_files.py`) and its
  extended form (`diff_dataframes` / `values_equal` in
  `src/streamlit_app.py`), which compares two keyed row-sets cell by cell
  under configurable equality semantics.

Modelling conventions:

* CSV cells are strings (`pd.read_csv(dtype=str, keep_default_na=False)`
  never produces NaN on read).  Cells that arise as NaN *after* an outer
  merge are modelled as `none : Option String`; a present string `v` is
  `some v`.  `Series.astype(str)` renders NaN as the three-letter string
  `"nan"`, which the embedding reproduces (`astypeStr`).
* Python `str.strip()` / `str.lower()` are `pyStrip` / `pyLower`.
* Python `float(...)` is modelled as exact rational arithmetic on
  fractions with positive denominators (`PyNum`), produced by a decimal
  parser (`tryFloat`): optional sign, integer digits, optional fractional
  digits.  All numeric comparisons of the source go through this single
  routine; `PyNum.toRat` relates the comparisons to the rationals.
* File-system access is out of scope: an input file is a `RawInput`
  (its path string, its column list and its parsed rows); `sys.exit` is
  modelled by `Except String`.
* Tables handed to the Differ are `DFrame`s whose identity key is
  structural (`Key`: the three key columns always exist); NaN cells of
  Differ inputs are pre-converted to `""`, exactly as both differ
  variants do before comparing and before emitting records.
* Pandas cross-products on duplicate join keys are modelled faithfully
  (`bothPairs`); theorems about per-key behaviour carry the data model's
  precondition that a row-set keyed by (state, county, precinct) has at
  most one row per key.
-/

/-! ## Generic list helpers -/

/-- Left-to-right flat map, used to model nested `for` loops that append
to an accumulator list. -/
def flatMapL {α β : Type} (g : α → List β) : List α → List β
  | [] => []
  | a :: l => g a ++ flatMapL g l

/-- First-occurrence duplicate removal (the order in which an outer
merge accumulates keys; Python `set` construction up to order). -/
def dedupFirstAux {α : Type} [DecidableEq α] (seen : List α) : List α → List α
  | [] => []
  | a :: l => if a ∈ seen then dedupFirstAux seen l else a :: dedupFirstAux (a :: seen) l

def dedupFirst {α : Type} [DecidableEq α] (l : List α) : List α :=
  dedupFirstAux [] l

/-- Stable insertion of `a` into `l` relative to the boolean order `le`. -/
def insertBy {α : Type} (le : α → α → Bool) (a : α) : List α → List α
  | [] => [a]
  | b :: l => if le a b then a :: b :: l else b :: insertBy le a l

/-- Stable sort by a boolean order, modelling `DataFrame.sort_values`
(only the multiset of rows matters for the claims; stability and
sortedness are not used by them). -/
def sortBy {α : Type} (le : α → α → Bool) : List α → List α
  | [] => []
  | a :: l => insertBy le a (sortBy le l)

/-! ## Python string primitives -/

/-- Python `str.strip()`: drop leading and trailing whitespace. -/
def pyStrip (s : String) : String :=
  ⟨((s.data.dropWhile Char.isWhitespace).reverse.dropWhile Char.isWhitespace).reverse⟩

/-- Python `str.lower()` (ASCII case folding suffices for the data). -/
def pyLower (s : String) : String :=
  ⟨s.data.map Char.toLower⟩

/-- Lexicographic comparison of character lists by code point, the order
Python `sorted` uses on strings. -/
def strListLeB : List Char → List Char → Bool
  | [], _ => true
  | _ :: _, [] => false
  | a :: as, b :: bs => if a = b then strListLeB as bs else decide (a < b)

def strLeB (a b : String) : Bool := strListLeB a.data b.data

/-! ## Exact numbers standing in for Python floats

The source parses cell strings with `float(...)` and compares with
`abs(a - b) <= tol`.  The embedding uses exact fractions: an integer
numerator over a positive power-of-ten denominator, exactly what a
decimal literal denotes.  (Mathlib rationals are not used in the
executable definitions because their arithmetic is `@[irreducible]`;
the bridge `PyNum.toRat` recovers them in statements.) -/

structure PyNum where
  num : Int
  den : Nat
deriving DecidableEq

/-- The rational value of a fraction. -/
def PyNum.toRat (a : PyNum) : ℚ := (a.num : ℚ) / (a.den : ℚ)

/-- Comparison `a <= b` on fractions with positive denominators. -/
def pyLe (a b : PyNum) : Bool := decide (a.num * (b.den : Int) ≤ b.num * (a.den : Int))

def pySub (a b : PyNum) : PyNum := ⟨a.num * (b.den : Int) - b.num * (a.den : Int), a.den * b.den⟩

def pyAbs (a : PyNum) : PyNum := ⟨|a.num|, a.den⟩

/-! ## Numeric parsing (`try_float`) -/

def natOfDigits (ds : List Char) : Nat :=
  ds.foldl (fun n c => n * 10 + (c.toNat - 48)) 0

/-- Unsigned decimal digits with an optional fractional part, returned
as (scaled integer value, number of fractional digits). -/
def parseDec (cs : List Char) : Option (Nat × Nat) :=
  let intPart := cs.takeWhile (fun c => c.isDigit)
  let rest := cs.dropWhile (fun c => c.isDigit)
  match rest with
  | [] => if intPart.isEmpty then none else some (natOfDigits intPart, 0)
  | '.' :: frac =>
    if frac.all (fun c => c.isDigit) && !(intPart.isEmpty && frac.isEmpty) then
      some (natOfDigits intPart * 10 ^ frac.length + natOfDigits frac, frac.length)
    else none
  | _ => none

/-- Python `float(v)` restricted to plain decimal literals: optional
surrounding whitespace, optional sign, digits with an optional
fractional part (`"10"`, `"10.001"`, `".5"`, `"5."`).  This is the
single shared numeric-parse routine of both differ files (`try_float`);
exotic float syntax (exponents, inf, nan) is outside the data's
vocabulary and not modelled. -/
def tryFloat (s : String) : Option PyNum :=
  match (pyStrip s).data with
  | '-' :: r => (parseDec r).map (fun p => ⟨-(p.1 : Int), 10 ^ p.2⟩)
  | '+' :: r => (parseDec r).map (fun p => ⟨(p.1 : Int), 10 ^ p.2⟩)
  | cs => (parseDec cs).map (fun p => ⟨(p.1 : Int), 10 ^ p.2⟩)

/-! ## The Differ's equality relation -/

/-- Normalization `normalize_value` (identical in both differ files): trim, and
lowercase unless case-sensitive mode is on. -/
def normalize_value (s : String) (case_sensitive : Bool) : String :=
  let t := pyStrip s
  if case_sensitive then t else pyLower t

/-- Guard `f is not None and abs(f) <= float_tol` on an optional parsed number. -/
def absLeTol (o : Option PyNum) (tol : PyNum) : Bool :=
  match o with
  | some q => pyLe (pyAbs q) tol
  | none => false

/-- Function `compare_values` of `src/diff_precinct_files.py` (lines 56-72):
equal normalized strings, else numeric comparison within tolerance when
both sides parse, else unequal. -/
def compare_values (v1 v2 : String) (float_tol : PyNum) (case_sensitive : Bool) : Bool :=
  let n1 := normalize_value v1 case_sensitive
  let n2 := normalize_value v2 case_sensitive
  if n1 = n2 then true
  else
    match tryFloat n1, tryFloat n2 with
    | some f1, some f2 => pyLe (pyAbs (pySub f1 f2)) float_tol
    | _, _ => false

/-- Function `values_equal` of `src/streamlit_app.py` (lines 388-416), the
extended equality relation: blank/blank, then blank vs numeric value
within tolerance of zero, then exact normalized match, then numeric
comparison within tolerance. -/
def values_equal (v1 v2 : String) (float_tol : PyNum) (case_sensitive : Bool) : Bool :=
  let n1 := normalize_value v1 case_sensitive
  let n2 := normalize_value v2 case_sensitive
  let f1 := tryFloat n1
  let f2 := tryFloat n2
  if decide (n1 = "") && decide (n2 = "") then true
  else if (decide (n1 = "") && absLeTol f2 float_tol) || (decide (n2 = "") && absLeTol f1 float_tol) then true
  else if decide (n1 = n2) then true
  else
    match f1, f2 with
    | some a, some b => pyLe (pyAbs (pySub a b)) float_tol
    | _, _ => false

/-! ## Keyed tables -/

/-- The identity key (state, county, precinct). -/
structure Key where
  state : String
  county : String
  precinct : String
deriving DecidableEq

/-- Key normalization (`df[k].astype(str).str.strip()`), applied by
`read_csv`-side preparation in all three entry points. -/
def Key.strip (k : Key) : Key := ⟨pyStrip k.state, pyStrip k.county, pyStrip k.precinct⟩

/-- A differ input table: non-key column names plus rows of cells.
The key columns exist structurally; all cells are strings (NaN cells of
a pandas frame are pre-converted to `""`, exactly what both differ
variants do before comparing and before emitting records). -/
structure DFrame where
  cols : List String
  rows : List (Key × List (String × String))
deriving DecidableEq

def DFrame.keyList (d : DFrame) : List Key := d.rows.map (fun r => r.1)

def DFrame.stripKeys (d : DFrame) : DFrame := ⟨d.cols, d.rows.map (fun r => (r.1.strip, r.2))⟩

/-- The row-set keyed by (state, county, precinct) data-model
precondition: at most one row per identity key. -/
def dupFreeKeys (d : DFrame) : Bool := decide d.keyList.Nodup

/-- Read one cell of a row (a pandas row always carries a value for
every column of its frame; `""` is the written form of NaN). -/
def rowCell (r : List (String × String)) (c : String) : String := (List.lookup c r).getD ""

def hasKeyRow (d : DFrame) (k : Key) : Bool := d.rows.any (fun r => decide (r.1 = k))

/-- Rows of `d1` whose key matches no row of `d2` (merge indicator
`left_only`). -/
def leftOnlyRows (d1 d2 : DFrame) : List (Key × List (String × String)) :=
  d1.rows.filter (fun r => !hasKeyRow d2 r.1)

/-- Rows of `d2` whose key matches no row of `d1` (merge indicator
`right_only`). -/
def rightOnlyRows (d1 d2 : DFrame) : List (Key × List (String × String)) :=
  d2.rows.filter (fun r => !hasKeyRow d1 r.1)

/-- Row pairs of the outer merge with indicator `both`: every row of
`d1` paired with every row of `d2` sharing its key (pandas produces the
full cross product when keys repeat). -/
def bothPairs (d1 d2 : DFrame) :
    List ((Key × List (String × String)) × (Key × List (String × String))) :=
  flatMapL (fun r1 => (d2.rows.filter (fun r2 => decide (r2.1 = r1.1))).map (fun r2 => (r1, r2))) d1.rows

/-! ## Diff records and the diff engines -/

structure DiffRec where
  key : Key
  diff_type : String
  column : String
  file1_value : String
  file2_value : String
  description : String
deriving DecidableEq

/-- The final `sort_values(by=[state, county, precinct, diff_type, column])`. -/
def diffLeB (r1 r2 : DiffRec) : Bool :=
  if r1.key.state ≠ r2.key.state then strLeB r1.key.state r2.key.state
  else if r1.key.county ≠ r2.key.county then strLeB r1.key.county r2.key.county
  else if r1.key.precinct ≠ r2.key.precinct then strLeB r1.key.precinct r2.key.precinct
  else if r1.diff_type ≠ r2.diff_type then strLeB r1.diff_type r2.diff_type
  else strLeB r1.column r2.column

/-- The diff skeleton shared by `diff_precinct_files.main` and
`streamlit_app.diff_dataframes`: one missing-row record per
exclusively-present row, then per selected column one value-mismatch
record per both-row whose cells the equality relation rejects, sorted at
the end.  A column is compared only when both suffixed merge columns
exist, i.e. when it is a non-key column of both frames. -/
def diffRecsRaw (d1 d2 : DFrame) (cols : List String)
    (eqv : String → String → Bool)
    (miss2 miss1 : Key → DiffRec)
    (mism : Key → String → String → String → DiffRec) : List DiffRec :=
  (leftOnlyRows d1 d2).map (fun r => miss2 r.1)
    ++ (rightOnlyRows d1 d2).map (fun r => miss1 r.1)
    ++ flatMapL (fun c =>
         if decide (c ∈ d1.cols) && decide (c ∈ d2.cols) then
           (bothPairs d1 d2).filterMap (fun p =>
             if eqv (rowCell p.1.2 c) (rowCell p.2.2 c) then none
             else some (mism p.1.1 c (rowCell p.1.2 c) (rowCell p.2.2 c)))
         else []) cols

def diffCore (d1 d2 : DFrame) (cols : List String)
    (eqv : String → String → Bool)
    (miss2 miss1 : Key → DiffRec)
    (mism : Key → String → String → String → DiffRec) : List DiffRec :=
  sortBy diffLeB (diffRecsRaw d1 d2 cols eqv miss2 miss1 mism)

/-- Column selection of `diff_dataframes` (streamlit, lines 430-434):
the given list, or the intersection of non-key columns; then
`ballots_cast` is removed and the list sorted. -/
def sCompareCols (d1 d2 : DFrame) (cc : Option (List String)) : List String :=
  let base :=
    match cc with
    | some l => l
    | none => dedupFirst (d1.cols.filter (fun c => decide (c ∈ d2.cols)))
  sortBy strLeB (base.filter (fun c => decide (c ≠ "ballots_cast")))

def sMiss2 (k : Key) : DiffRec :=
  ⟨k, "missing_in_file2", "", "ROW_PRESENT", "ROW_MISSING",
   "Row exists in file1 but not in file2."⟩

def sMiss1 (k : Key) : DiffRec :=
  ⟨k, "missing_in_file1", "", "ROW_MISSING", "ROW_PRESENT",
   "Row exists in file2 but not in file1."⟩

def sMism (k : Key) (c v1 v2 : String) : DiffRec :=
  ⟨k, "value_mismatch", c, v1, v2,
   "Column \x27" ++ c ++ "\x27 differs (file1 vs file2)."⟩

/-- Function `diff_dataframes` of `src/streamlit_app.py` (lines 418-476): strip
keys, select columns (always excluding `ballots_cast`), and run the diff
skeleton under the extended equality relation `values_equal`. -/
def diff_dataframes (df1 df2 : DFrame) (cc : Option (List String)) (tol : PyNum) (cs : Bool) :
    List DiffRec :=
  let d1 := df1.stripKeys
  let d2 := df2.stripKeys
  diffCore d1 d2 (sCompareCols d1 d2 cc) (fun v1 v2 => values_equal v1 v2 tol cs)
    sMiss2 sMiss1 sMism

def pyBoolStr (b : Bool) : String := if b then "True" else "False"

/-- Abstract rendering of the tolerance inside the CLI description
string (stands in for Python float repr; no claim concerns it). -/
def pyNumStr (q : PyNum) : String := toString q.num ++ "/" ++ toString q.den

def cliMiss2 (path1 path2 : String) (k : Key) : DiffRec :=
  ⟨k, "missing_in_file2", "", "ROW_PRESENT", "ROW_MISSING",
   "Row exists in file1 (" ++ path1 ++ ") but not in file2 (" ++ path2 ++ ")."⟩

def cliMiss1 (path1 path2 : String) (k : Key) : DiffRec :=
  ⟨k, "missing_in_file1", "", "ROW_MISSING", "ROW_PRESENT",
   "Row exists in file2 (" ++ path2 ++ ") but not in file1 (" ++ path1 ++ ")."⟩

def cliMism (tol : PyNum) (cs : Bool) (k : Key) (c v1 v2 : String) : DiffRec :=
  ⟨k, "value_mismatch", c, v1, v2,
   "Column \x27" ++ c ++ "\x27 differs (file1 vs file2) with tol=" ++ pyNumStr tol
     ++ ", case_sensitive=" ++ pyBoolStr cs ++ "."⟩

/-- Column selection of the CLI differ (`diff_precinct_files.main`,
lines 87-92): the `--only-cols` values as a set, or the intersection of
the two tables' non-key columns (iteration order of the Python set is
modelled as first occurrence; the final sort makes the output
order-independent and no claim depends on record order). -/
def cliCompareCols (d1 d2 : DFrame) (cc : Option (List String)) : List String :=
  match cc with
  | some l => dedupFirst l
  | none => dedupFirst (d1.cols.filter (fun c => decide (c ∈ d2.cols)))

/-- The diff pipeline of `src/diff_precinct_files.py` `main`
(lines 94-162): read (keys stripped), select columns, outer-merge and
emit missing-row and value-mismatch records under `compare_values`. -/
def diff_files (path1 path2 : String) (df1 df2 : DFrame) (cc : Option (List String))
    (tol : PyNum) (cs : Bool) : List DiffRec :=
  let d1 := df1.stripKeys
  let d2 := df2.stripKeys
  diffCore d1 d2 (cliCompareCols d1 d2 cc) (fun v1 v2 => compare_values v1 v2 tol cs)
    (cliMiss2 path1 path2) (cliMiss1 path1 path2) (cliMism tol cs)

/-! ## The Combiner (`src/combine_vote_type_exports.py`) -/

inductive VType
  | total
  | eday
  | early
  | absentee
  | mailin
deriving DecidableEq

def typeName : VType → String
  | .total => "total"
  | .eday => "eday"
  | .early => "early"
  | .absentee => "absentee"
  | .mailin => "mailin"

/-- Insertion order of `VTYPE_TO_COLS` (the order `main` iterates
supplied inputs and the order merged columns accumulate). -/
def allVTypes : List VType := [.total, .eday, .early, .absentee, .mailin]

/-- Priority order `TYPE_PRIORITY = ["total","eday","early","absentee","mailin"]`. -/
def TYPE_PRIORITY : List VType := [.total, .eday, .early, .absentee, .mailin]

def ID_COLS : List String := ["state", "county", "precinct"]

def SHARED_REG_COLS : List String :=
  ["registered_voters", "republican_registrations", "democrat_registrations",
   "other_registrations"]

def NONSHARED_BASE_COLS : List String := ["overall_turnout", "ballots_cast"]

def VTYPE_TO_COLS : VType → List String
  | .total => ["candidate_a_votes_total", "candidate_b_votes_total", "total_votes"]
  | .eday => ["candidate_a_votes_election_day", "candidate_b_votes_election_day",
              "total_votes_election_day"]
  | .early => ["candidate_a_votes_early", "candidate_b_votes_early", "total_votes_early"]
  | .absentee => ["candidate_a_votes_absentee", "candidate_b_votes_absentee",
                  "total_votes_absentee"]
  | .mailin => ["candidate_a_votes_mailin", "candidate_b_votes_mailin", "total_votes_mailin"]

def CSV_COLUMNS : List String :=
  ["state", "county", "precinct", "overall_turnout", "ballots_cast",
   "registered_voters", "republican_registrations", "democrat_registrations",
   "other_registrations",
   "candidate_a_votes_total", "candidate_b_votes_total", "total_votes",
   "candidate_a_votes_election_day", "candidate_b_votes_election_day",
   "total_votes_election_day",
   "candidate_a_votes_early", "candidate_b_votes_early", "total_votes_early",
   "candidate_a_votes_absentee", "candidate_b_votes_absentee", "total_votes_absentee",
   "candidate_a_votes_mailin", "candidate_b_votes_mailin", "total_votes_mailin"]

/-- One vote-type CSV as read: its path, its column names and its rows
(each row carries the parsed identity key plus the cells of the non-key
columns).  When the file genuinely lacks an identity column, validation
rejects it before the key is ever consulted. -/
structure RawInput where
  path : String
  cols : List String
  rows : List (Key × List (String × String))
deriving DecidableEq

/-- The inputs of one Combiner run: at most one file per vote-type flag
(inputs are identified by flag, not by position, so there is no input
order beyond the fixed iteration order of `VTYPE_TO_COLS`). -/
abbrev CInputs := VType → Option RawInput

def suppliedTypes (inp : CInputs) : List VType :=
  allVTypes.filter (fun t => (inp t).isSome)

/-- Keys of one input after `read_one` strips the identity columns. -/
def rawKeys (f : RawInput) : List Key := f.rows.map (fun r => r.1.strip)

def allInputKeys (inp : CInputs) : List Key :=
  flatMapL (fun t => match inp t with | some f => rawKeys f | none => []) allVTypes

/-- Keys of the iterated outer merge: every key appearing in any
supplied input, first occurrence first. -/
def mergedKeys (inp : CInputs) : List Key := dedupFirst (allInputKeys inp)

/-- The data-model precondition scoping the per-key embedding of the
merge: each supplied input has at most one row per stripped key. -/
def wellKeyed (inp : CInputs) : Bool :=
  allVTypes.all (fun t =>
    match inp t with
    | some f => decide (rawKeys f).Nodup
    | none => true)

/-- Whether the provenance-tagged column `c__from_t` exists in the
merged frame: vote type `t` was supplied and its file has column `c`
(shared and base columns are always inside the `needed` selection). -/
def variantPresent (inp : CInputs) (t : VType) (c : String) : Bool :=
  match inp t with
  | some f => decide (c ∈ f.cols)
  | none => false

def findRow (f : RawInput) (k : Key) : Option (List (String × String)) :=
  (f.rows.find? (fun r => decide (r.1.strip = k))).map (fun r => r.2)

/-- The merged frame's cell for provenance-tagged column `c__from_t` at
key `k`: `none` is the NaN an outer merge leaves where the source has no
row for `k` (or contributes no such column). -/
def mergedCellFrom (inp : CInputs) (t : VType) (c : String) (k : Key) : Option String :=
  match inp t with
  | none => none
  | some f =>
    if decide (c ∈ f.cols) then
      match findRow f k with
      | some r => some ((List.lookup c r).getD "")
      | none => none
    else none

/-- Variant list, per the comprehension over TYPE_PRIORITY restricted to merged columns
(also the merged-column order the conflict loop scans, since merged
columns accumulate in the same type order). -/
def variantsFor (inp : CInputs) (c : String) : List VType :=
  TYPE_PRIORITY.filter (fun t => variantPresent inp t c)

/-- Rendering `Series.astype(str)` of one cell: NaN renders as `"nan"`. -/
def astypeStr : Option String → String
  | none => "nan"
  | some v => v

/-- Function `coalesce_first_nonempty` (lines 71-77): start from the first
variant column and replace the running value only where
`s.astype(str).str.len() > 0` fails.  Note a NaN cell renders as
`"nan"` (length 3), so a NaN in a higher-priority variant is *kept*
(and later written as `""` by `fillna`). -/
def coalesce_first_nonempty (cells : List (Option String)) : Option String :=
  match cells with
  | [] => none
  | c0 :: rest => rest.foldl (fun s c => if (astypeStr s).length > 0 then s else c) c0

/-- The combined value of a shared or type-dependent base column after
the per-priority coalesce and `fillna("")` (lines 181-201). -/
def combinedValue (inp : CInputs) (c : String) (k : Key) : String :=
  let vars := variantsFor inp c
  if vars.isEmpty then ""
  else (coalesce_first_nonempty (vars.map (fun t => mergedCellFrom inp t c k))).getD ""

/-- The distinct-value census of the conflict check (lines 144-145):
`replace("", NA)` then `nunique` over the variant columns, so exactly
the non-NaN, non-`""` cells participate. -/
def nonNAValues (inp : CInputs) (c : String) (k : Key) : List String :=
  (variantsFor inp c).filterMap (fun t =>
    match mergedCellFrom inp t c k with
    | some v => if decide (v = "") then none else some v
    | none => none)

def hasConflictKC (inp : CInputs) (c : String) (k : Key) : Bool :=
  decide ((dedupFirst (nonNAValues inp c k)).length > 1)

structure ConflictRec where
  key : Key
  column : String
  source_type : String
  source_column : String
  source_file : String
  value : String
deriving DecidableEq

def pathOf (inp : CInputs) (t : VType) : String :=
  match inp t with
  | some f => f.path
  | none => ""

/-- Records emitted for one conflicted (key, shared column): one per
variant whose cell is neither NaN nor whitespace-blank (lines 148-161);
`source_type` is recovered from the provenance tag. -/
def conflictRecsFor (inp : CInputs) (c : String) (k : Key) : List ConflictRec :=
  (variantsFor inp c).filterMap (fun t =>
    match mergedCellFrom inp t c k with
    | some v =>
      if decide (pyStrip v = "") then none
      else some ⟨k, c, typeName t, c ++ "__from_" ++ typeName t, pathOf inp t, v⟩
    | none => none)

/-- List `conflict_rows` (lines 140-161): per shared column, per merged key
with more than one distinct non-empty value. -/
def conflictRows (inp : CInputs) : List ConflictRec :=
  flatMapL (fun c =>
    flatMapL (fun k => if hasConflictKC inp c k then conflictRecsFor inp c k else [])
      (mergedKeys inp)) SHARED_REG_COLS

/-- Keys of the error report; rows carrying any of them are dropped
from the combined output (`err_df[ID_COLS].drop_duplicates()` merge,
lines 173-176). -/
def reportKeys (inp : CInputs) : List Key := (conflictRows inp).map (fun r => r.key)

def combinedKeys (inp : CInputs) : List Key :=
  (mergedKeys inp).filter (fun k => !(decide (k ∈ reportKeys inp)))

def keyLeB (k1 k2 : Key) : Bool :=
  if k1.state ≠ k2.state then strLeB k1.state k2.state
  else if k1.county ≠ k2.county then strLeB k1.county k2.county
  else strLeB k1.precinct k2.precinct

/-- Error-report sort order `ID_COLS + ["column", "source_type"]`. -/
def confLeB (r1 r2 : ConflictRec) : Bool :=
  if r1.key ≠ r2.key then keyLeB r1.key r2.key
  else if r1.column ≠ r2.column then strLeB r1.column r2.column
  else strLeB r1.source_type r2.source_type

def conflictReport (inp : CInputs) : List ConflictRec := sortBy confLeB (conflictRows inp)

/-- One cell of the final combined frame in `CSV_COLUMNS` order:
identity from the key, coalesced values for shared and base columns,
and each vote type's own triplet cells (NaN written as `""` by
`to_csv`; a missing vote type's columns are created empty). -/
def outputCell (inp : CInputs) (k : Key) (c : String) : String :=
  if c = "state" then k.state
  else if c = "county" then k.county
  else if c = "precinct" then k.precinct
  else if decide (c ∈ NONSHARED_BASE_COLS) || decide (c ∈ SHARED_REG_COLS) then
    combinedValue inp c k
  else
    match allVTypes.find? (fun t => decide (c ∈ VTYPE_TO_COLS t)) with
    | some t => (mergedCellFrom inp t c k).getD ""
    | none => ""

/-- The combined output: conflicted keys dropped whole, rows sorted by
identity key, columns in canonical order (lines 163-221). -/
def combined_output (inp : CInputs) : List (Key × List (String × String)) :=
  (sortBy keyLeB (combinedKeys inp)).map
    (fun k => (k, CSV_COLUMNS.map (fun c => (c, outputCell inp k c))))

/-- Validation of one supplied input, in source order: `read_one`
rejects the first missing identity column (line 61), then `main`
rejects missing vote-type triplet columns (lines 124-125). -/
def validateOne (t : VType) (f : RawInput) : Option String :=
  match ID_COLS.find? (fun c => !(decide (c ∈ f.cols))) with
  | some c => some (f.path ++ ": missing ID column " ++ c)
  | none =>
    let missing := (VTYPE_TO_COLS t).filter (fun c => !(decide (c ∈ f.cols)))
    if missing.isEmpty then none
    else some (f.path ++ ": missing expected columns for " ++ typeName t ++ ": "
      ++ String.intercalate ", " missing)

/-- The Combiner entry point (`main`): zero supplied inputs or any
failed validation is a fatal error (`sys.exit` before any output
exists); otherwise both artifacts are produced. -/
def combine_main (inp : CInputs) :
    Except String ((List (Key × List (String × String))) × List ConflictRec) :=
  if (suppliedTypes inp).isEmpty then Except.error "No input files provided!"
  else
    match List.findSome?
        (fun t => match inp t with | some f => validateOne t f | none => none)
        (suppliedTypes inp) with
    | some e => Except.error e
    | none => Except.ok (combined_output inp, conflictReport inp)

/-- Modelled from the spec (Operation - Coalesce): the coalescing rule
as the specification states it, kept separate from the source-derived
`coalesce_first_nonempty` so the two can be compared: the first variant
cell that is present and non-empty wins; a cell absent after the merge
counts as having no value; empty string when no variant is non-empty. -/
def coalesce_spec (cells : List (Option String)) : String :=
  match (cells.filterMap id).filter (fun v => decide (v ≠ "")) with
  | [] => ""
  | v :: _ => v

/-! ## Concrete instances used by the claims -/

def c1K1 : Key := ⟨"S", "C", "P1"⟩

def c1K2 : Key := ⟨"S", "C", "P2"⟩

/-- The `--total` file: carries `overall_turnout` but only a row for P1. -/
def c1TotalIn : RawInput :=
  ⟨"total.csv",
   ["state", "county", "precinct", "overall_turnout",
    "candidate_a_votes_total", "candidate_b_votes_total", "total_votes"],
   [(c1K1, [("overall_turnout", ""), ("candidate_a_votes_total", "1"),
            ("candidate_b_votes_total", "2"), ("total_votes", "3")])]⟩

/-- The `--early` file: rows for P1 and P2; P2 has `overall_turnout = "7"`. -/
def c1EarlyIn : RawInput :=
  ⟨"early.csv",
   ["state", "county", "precinct", "overall_turnout",
    "candidate_a_votes_early", "candidate_b_votes_early", "total_votes_early"],
   [(c1K1, [("overall_turnout", ""), ("candidate_a_votes_early", "1"),
            ("candidate_b_votes_early", "1"), ("total_votes_early", "2")]),
    (c1K2, [("overall_turnout", "7"), ("candidate_a_votes_early", "4"),
            ("candidate_b_votes_early", "5"), ("total_votes_early", "9")])]⟩

def c1Inp : CInputs := fun t =>
  match t with
  | .total => some c1TotalIn
  | .early => some c1EarlyIn
  | _ => none

def c4Key : Key := ⟨"S", "C", "P"⟩

/-- A minimal valid vote-type input carrying `registered_voters = v`
for the single key `c4Key`. -/
def c4Input (t : VType) (v : String) : RawInput :=
  ⟨"in_" ++ typeName t ++ ".csv",
   ["state", "county", "precinct", "registered_voters"] ++ VTYPE_TO_COLS t,
   [(c4Key, ("registered_voters", v) :: (VTYPE_TO_COLS t).map (fun c => (c, "")))]⟩

def c4Inp (t1 t2 : VType) (v1 v2 : String) : CInputs := fun t =>
  if t = t1 then some (c4Input t1 v1)
  else if t = t2 then some (c4Input t2 v2)
  else none

def w9K1 : Key := ⟨"A", "B", "P1"⟩

def w9K2 : Key := ⟨"A", "B", "P2"⟩

def w9F1 : DFrame :=
  ⟨["registered_voters"],
   [(w9K1, [("registered_voters", "10")]), (w9K2, [("registered_voters", "11")])]⟩

def w9F2 : DFrame :=
  ⟨["registered_voters"], [(w9K2, [("registered_voters", "11")])]⟩

def w8BadIn : RawInput :=
  ⟨"mailin.csv", ["county", "precinct", "registered_voters"], []⟩

def w8Inp : CInputs := fun t =>
  match t with
  | .mailin => some w8BadIn
  | _ => none

def w8NoneInp : CInputs := fun _ => none

/-! ## Theorems: generic list lemmas -/

theorem mem_flatMapL {α β : Type} {g : α → List β} {l : List α} {b : β} :
    b ∈ flatMapL g l ↔ ∃ a, a ∈ l ∧ b ∈ g a := by
  induction l with
  | nil => simp [flatMapL]
  | cons a l ih =>
    simp only [flatMapL, List.mem_append, ih, List.mem_cons]
    constructor
    · rintro (h | ⟨a2, h1, h2⟩)
      · exact ⟨a, Or.inl rfl, h⟩
      · exact ⟨a2, Or.inr h1, h2⟩
    · rintro ⟨a2, (rfl | h1), h2⟩
      · exact Or.inl h2
      · exact Or.inr ⟨a2, h1, h2⟩

theorem filter_flatMapL {α β : Type} (g : α → List β) (p : β → Bool) (l : List α) :
    (flatMapL g l).filter p = flatMapL (fun a => (g a).filter p) l := by
  induction l with
  | nil => rfl
  | cons a l ih => simp [flatMapL, List.filter_append, ih]

theorem flatMapL_eq_nil {α β : Type} {g : α → List β} {l : List α}
    (h : ∀ a ∈ l, g a = []) : flatMapL g l = [] := by
  induction l with
  | nil => rfl
  | cons a l ih =>
    simp only [flatMapL, h a (by simp), List.nil_append]
    exact ih (fun a2 h2 => h a2 (by simp [h2]))

theorem mem_dedupFirstAux {α : Type} [DecidableEq α] {a : α} :
    ∀ {l seen : List α}, a ∈ dedupFirstAux seen l ↔ a ∈ l ∧ a ∉ seen := by
  intro l
  induction l with
  | nil => intro seen; simp [dedupFirstAux]
  | cons b l ih =>
    intro seen
    by_cases hb : b ∈ seen
    · simp only [dedupFirstAux, if_pos hb, ih, List.mem_cons]
      constructor
      · rintro ⟨h1, h2⟩; exact ⟨Or.inr h1, h2⟩
      · rintro ⟨h1 | h1, h2⟩
        · exact absurd (h1 ▸ hb) h2
        · exact ⟨h1, h2⟩
    · simp only [dedupFirstAux, if_neg hb, List.mem_cons, ih]
      constructor
      · rintro (rfl | ⟨h1, h2⟩)
        · exact ⟨Or.inl rfl, hb⟩
        · refine ⟨Or.inr h1, fun hc => h2 (by simp [hc])⟩
      · rintro ⟨rfl | h1, h2⟩
        · exact Or.inl rfl
        · by_cases hab : a = b
          · exact Or.inl hab
          · exact Or.inr ⟨h1, by simp [hab, h2]⟩

theorem mem_dedupFirst {α : Type} [DecidableEq α] {a : α} {l : List α} :
    a ∈ dedupFirst l ↔ a ∈ l := by
  simp [dedupFirst, mem_dedupFirstAux]

theorem insertBy_perm {α : Type} (le : α → α → Bool) (a : α) (l : List α) :
    List.Perm (insertBy le a l) (a :: l) := by
  induction l with
  | nil => simp [insertBy]
  | cons b l ih =>
    by_cases h : le a b
    · simp [insertBy, h]
    · simp only [insertBy, if_neg h]
      exact ((ih.cons b).trans (List.Perm.swap a b l))

theorem sortBy_perm {α : Type} (le : α → α → Bool) (l : List α) :
    List.Perm (sortBy le l) l := by
  induction l with
  | nil => simp [sortBy]
  | cons a l ih => exact (insertBy_perm le a (sortBy le l)).trans (ih.cons a)

theorem mem_sortBy {α : Type} {le : α → α → Bool} {a : α} {l : List α} :
    a ∈ sortBy le l ↔ a ∈ l :=
  (sortBy_perm le l).mem_iff

theorem filter_sortBy_perm {α : Type} (le : α → α → Bool) (p : α → Bool) (l : List α) :
    List.Perm ((sortBy le l).filter p) (l.filter p) :=
  (sortBy_perm le l).filter p

theorem findSome?_isSome_of_mem {α β : Type} {g : α → Option β} {l : List α} {a : α}
    (ha : a ∈ l) (h : (g a).isSome) : (List.findSome? g l).isSome := by
  induction l with
  | nil => cases ha
  | cons b l ih =>
    rcases List.mem_cons.mp ha with rfl | ha2
    · cases hg : g a with
      | none => rw [hg] at h; cases h
      | some v => simp [List.findSome?, hg]
    · cases hg : g b with
      | none => simpa [List.findSome?, hg] using ih ha2
      | some v => simp [List.findSome?, hg]

/-! ## Theorems: numbers -/

theorem pyLe_iff_toRat {a b : PyNum} (ha : 0 < a.den) (hb : 0 < b.den) :
    pyLe a b = true ↔ a.toRat ≤ b.toRat := by
  have ha2 : (0 : ℚ) < (a.den : ℚ) := by exact_mod_cast ha
  have hb2 : (0 : ℚ) < (b.den : ℚ) := by exact_mod_cast hb
  rw [pyLe, decide_eq_true_eq, PyNum.toRat, PyNum.toRat, div_le_div_iff₀ ha2 hb2]
  constructor
  · intro h; exact_mod_cast h
  · intro h; exact_mod_cast h

theorem pySub_toRat {a b : PyNum} (ha : 0 < a.den) (hb : 0 < b.den) :
    (pySub a b).toRat = a.toRat - b.toRat := by
  have ha2 : ((a.den : ℚ)) ≠ 0 := by
    simp only [ne_eq, Nat.cast_eq_zero]
    omega
  have hb2 : ((b.den : ℚ)) ≠ 0 := by
    simp only [ne_eq, Nat.cast_eq_zero]
    omega
  simp only [PyNum.toRat, pySub]
  push_cast
  field_simp
  ring

theorem pyAbs_toRat {a : PyNum} : (pyAbs a).toRat = |a.toRat| := by
  simp only [PyNum.toRat, pyAbs, abs_div]
  congr 1
  · push_cast; rfl
  · rw [abs_of_nonneg]
    positivity

theorem pySub_den_pos {a b : PyNum} (ha : 0 < a.den) (hb : 0 < b.den) :
    0 < (pySub a b).den := Nat.mul_pos ha hb

theorem pyAbs_den_pos {a : PyNum} (ha : 0 < a.den) : 0 < (pyAbs a).den := ha

theorem tryFloat_den_pos {s : String} {q : PyNum} (h : tryFloat s = some q) : 0 < q.den := by
  unfold tryFloat at h
  split at h <;>
  · rcases Option.map_eq_some'.mp h with ⟨p, hp, hq⟩
    rw [← hq]
    exact pow_pos (by norm_num) _

theorem tryFloat_empty : tryFloat "" = none := by decide

/-- The numeric branch guard `abs(a - b) <= tol` in its exact rational
reading. -/
theorem pyLe_abs_sub_iff {a b tol : PyNum} (ha : 0 < a.den) (hb : 0 < b.den)
    (htol : 0 < tol.den) :
    pyLe (pyAbs (pySub a b)) tol = true ↔ |a.toRat - b.toRat| ≤ tol.toRat := by
  rw [pyLe_iff_toRat (pyAbs_den_pos (pySub_den_pos ha hb)) htol, pyAbs_toRat,
    pySub_toRat ha hb]

/-- Nonnegativity `0 <= tol` transferred to the rationals. -/
theorem toRat_nonneg_of_pyLe_zero {tol : PyNum} (htol : pyLe ⟨0, 1⟩ tol = true)
    (hden : 0 < tol.den) : 0 ≤ tol.toRat := by
  rw [pyLe, decide_eq_true_eq] at htol
  have htol2 : (0 : Int) * (tol.den : Int) ≤ tol.num * ((1 : Nat) : Int) := htol
  have hnum0 : (0 : Int) ≤ tol.num := by omega
  have hnum : (0 : ℚ) ≤ (tol.num : ℚ) := by exact_mod_cast hnum0
  have hden2 : (0 : ℚ) ≤ (tol.den : ℚ) := by positivity
  exact div_nonneg hnum hden2

/-! ## Theorems: equality-relation lemmas -/

theorem values_equal_refl (v : String) (tol : PyNum) (cs : Bool) :
    values_equal v v tol cs = true := by
  by_cases h : normalize_value v cs = "" <;> simp [values_equal, h]

theorem compare_values_refl (v : String) (tol : PyNum) (cs : Bool) :
    compare_values v v tol cs = true := by
  simp [compare_values]

/-- Claim C5: in the extended equality relation, a blank side is equal
to a side that parses as a number whose absolute value is within the
tolerance; concretely, blank equals "0" and does not equal "0.5" at
tolerance zero. -/
theorem c5_blank_zero_equivalence :
    (∀ v1 v2 tol cs q,
      ((normalize_value v1 cs = "" ∧ tryFloat (normalize_value v2 cs) = some q)
        ∨ (normalize_value v2 cs = "" ∧ tryFloat (normalize_value v1 cs) = some q))
      → 0 < tol.den → |q.toRat| ≤ tol.toRat
      → values_equal v1 v2 tol cs = true)
    ∧ values_equal "" "0" ⟨0, 1⟩ false = true
    ∧ values_equal "" "0.5" ⟨0, 1⟩ false = false := by
  refine ⟨?_, by decide, by decide⟩
  rintro v1 v2 tol cs q (⟨h1, h2⟩ | ⟨h1, h2⟩) hden habs
  · have hq := tryFloat_den_pos h2
    have hple : pyLe (pyAbs q) tol = true := by
      rw [pyLe_iff_toRat (pyAbs_den_pos hq) hden, pyAbs_toRat]
      exact habs
    have hn2 : normalize_value v2 cs ≠ "" := by
      intro hc
      rw [hc, tryFloat_empty] at h2
      cases h2
    simp [values_equal, h1, h2, hn2, absLeTol, hple]
  · have hq := tryFloat_den_pos h2
    have hple : pyLe (pyAbs q) tol = true := by
      rw [pyLe_iff_toRat (pyAbs_den_pos hq) hden, pyAbs_toRat]
      exact habs
    have hn1 : normalize_value v1 cs ≠ "" := by
      intro hc
      rw [hc, tryFloat_empty] at h2
      cases h2
    simp [values_equal, h1, h2, hn1, absLeTol, hple]

theorem c5_blank_zero_equivalence_witness :
    (normalize_value "" true = "" ∧ tryFloat (normalize_value "0.00" true) = some ⟨0, 100⟩)
    ∧ values_equal "" "0.00" ⟨0, 1⟩ true = true :=
  ⟨⟨by decide, by decide⟩,
   c5_blank_zero_equivalence.1 "" "0.00" ⟨0, 1⟩ true ⟨0, 100⟩
     (Or.inl ⟨by decide, by decide⟩) (by decide) (by simp [PyNum.toRat])⟩

/-- Claim C6: when both sides parse as numbers, both comparison
relations agree with `abs(a - b) <= tol` exactly; concretely,
"10.001" vs "10.0" is equal at tolerance 0.01 and a mismatch at
tolerance 0. -/
theorem c6_numeric_tolerance :
    (∀ v1 v2 tol cs a b,
      0 < tol.den → pyLe ⟨0, 1⟩ tol = true
      → tryFloat (normalize_value v1 cs) = some a
      → tryFloat (normalize_value v2 cs) = some b
      → ((compare_values v1 v2 tol cs = true ↔ |a.toRat - b.toRat| ≤ tol.toRat)
          ∧ (values_equal v1 v2 tol cs = true ↔ |a.toRat - b.toRat| ≤ tol.toRat)))
    ∧ compare_values "10.001" "10.0" ⟨1, 100⟩ false = true
    ∧ compare_values "10.001" "10.0" ⟨0, 1⟩ false = false
    ∧ values_equal "10.001" "10.0" ⟨1, 100⟩ false = true
    ∧ values_equal "10.001" "10.0" ⟨0, 1⟩ false = false := by
  refine ⟨?_, by decide, by decide, by decide, by decide⟩
  intro v1 v2 tol cs a b hden htol ha hb
  have hda := tryFloat_den_pos ha
  have hdb := tryFloat_den_pos hb
  have hkey := pyLe_abs_sub_iff hda hdb hden
  have h0 : 0 ≤ tol.toRat := toRat_nonneg_of_pyLe_zero htol hden
  have hn1 : normalize_value v1 cs ≠ "" := by
    intro hc
    rw [hc, tryFloat_empty] at ha
    cases ha
  have hn2 : normalize_value v2 cs ≠ "" := by
    intro hc
    rw [hc, tryFloat_empty] at hb
    cases hb
  by_cases heq : normalize_value v1 cs = normalize_value v2 cs
  · have hab : a = b := by
      rw [heq] at ha
      exact Option.some.inj (ha.symm.trans hb)
    have habs : |a.toRat - b.toRat| ≤ tol.toRat := by
      rw [hab]
      simpa using h0
    constructor
    · exact ⟨fun _ => habs, fun _ => by simp [compare_values, heq]⟩
    · exact ⟨fun _ => habs, fun _ => by simp [values_equal, heq, hn1, hn2]⟩
  · have hc : compare_values v1 v2 tol cs = pyLe (pyAbs (pySub a b)) tol := by
      simp [compare_values, heq, ha, hb]
    have hv : values_equal v1 v2 tol cs = pyLe (pyAbs (pySub a b)) tol := by
      simp [values_equal, heq, hn1, hn2, ha, hb]
    rw [hc, hv]
    exact ⟨hkey, hkey⟩

theorem c6_numeric_tolerance_witness :
    (0 < (⟨1, 100⟩ : PyNum).den ∧ pyLe ⟨0, 1⟩ ⟨1, 100⟩ = true
      ∧ tryFloat (normalize_value "10.001" false) = some ⟨10001, 1000⟩
      ∧ tryFloat (normalize_value "10.0" false) = some ⟨100, 10⟩)
    ∧ ((compare_values "10.001" "10.0" ⟨1, 100⟩ false = true
        ↔ |(⟨10001, 1000⟩ : PyNum).toRat - (⟨100, 10⟩ : PyNum).toRat| ≤ (⟨1, 100⟩ : PyNum).toRat)
       ∧ (values_equal "10.001" "10.0" ⟨1, 100⟩ false = true
        ↔ |(⟨10001, 1000⟩ : PyNum).toRat - (⟨100, 10⟩ : PyNum).toRat| ≤ (⟨1, 100⟩ : PyNum).toRat)) :=
  ⟨⟨by decide, by decide, by decide, by decide⟩,
   c6_numeric_tolerance.1 "10.001" "10.0" ⟨1, 100⟩ false ⟨10001, 1000⟩ ⟨100, 10⟩
     (by decide) (by decide) (by decide) (by decide)⟩

/-! ## Theorems: diff-engine lemmas -/

theorem hasKeyRow_true_of_mem {d : DFrame} {r : Key × List (String × String)}
    (hr : r ∈ d.rows) : hasKeyRow d r.1 = true := by
  rw [hasKeyRow, List.any_eq_true]
  exact ⟨r, hr, by simp⟩

theorem bothPairs_mem {d1 d2 : DFrame} {p : (Key × List (String × String)) × (Key × List (String × String))}
    (hp : p ∈ bothPairs d1 d2) :
    p.1 ∈ d1.rows ∧ p.2 ∈ d2.rows ∧ p.2.1 = p.1.1 := by
  rw [bothPairs, mem_flatMapL] at hp
  obtain ⟨r1, hr1, hpr⟩ := hp
  rw [List.mem_map] at hpr
  obtain ⟨r2, hr2, hpr2⟩ := hpr
  have hm := List.mem_filter.mp hr2
  refine ⟨?_, ?_, ?_⟩
  · rw [← hpr2]
    exact hr1
  · rw [← hpr2]
    exact hm.1
  · rw [← hpr2]
    simpa using hm.2

/-- Self-diff of a table with duplicate-free keys yields no records:
no row is exclusively present, and every matched pair is a row against
itself, where a reflexive equality relation rejects nothing. -/
theorem diffCore_self_eq_nil (d : DFrame) (cols : List String)
    (eqv : String → String → Bool) (miss2 miss1 : Key → DiffRec)
    (mism : Key → String → String → String → DiffRec)
    (hnd : d.keyList.Nodup) (hre : ∀ v, eqv v v = true) :
    diffCore d d cols eqv miss2 miss1 mism = [] := by
  have hL : leftOnlyRows d d = [] := by
    apply List.filter_eq_nil_iff.mpr
    intro r hr
    simp [hasKeyRow_true_of_mem hr]
  have hC : flatMapL (fun c =>
      if decide (c ∈ d.cols) && decide (c ∈ d.cols) then
        (bothPairs d d).filterMap (fun p =>
          if eqv (rowCell p.1.2 c) (rowCell p.2.2 c) then none
          else some (mism p.1.1 c (rowCell p.1.2 c) (rowCell p.2.2 c)))
      else []) cols = [] := by
    apply flatMapL_eq_nil
    intro c _
    by_cases hpc : (decide (c ∈ d.cols) && decide (c ∈ d.cols)) = true
    · rw [if_pos hpc]
      apply List.filterMap_eq_nil_iff.mpr
      intro p hp
      obtain ⟨hp1, hp2, hpk⟩ := bothPairs_mem hp
      have heqr : p.2 = p.1 := List.inj_on_of_nodup_map hnd hp2 hp1 hpk
      rw [heqr, hre]
      simp
    · rw [if_neg hpc]
  have hR : rightOnlyRows d d = [] := by
    apply List.filter_eq_nil_iff.mpr
    intro r hr
    simp [hasKeyRow_true_of_mem hr]
  rw [diffCore, diffRecsRaw, hL, hR, hC]
  simp [sortBy]

/-- A key on exactly one row of `d1` and no row of `d2` contributes to
the diff exactly one record: `miss2` applied to it.  No mismatch record
can carry that key since it matches no row pair. -/
theorem diffCore_only_left (d1 d2 : DFrame) (cols : List String)
    (eqv : String → String → Bool) (miss2 miss1 : Key → DiffRec)
    (mism : Key → String → String → String → DiffRec) (k : Key)
    (hm2 : ∀ k2, (miss2 k2).key = k2)
    (hm1 : ∀ k2, (miss1 k2).key = k2)
    (hmm : ∀ k2 c v1 v2, (mism k2 c v1 v2).key = k2)
    (h1 : (d1.rows.filter (fun r => decide (r.1 = k))).length = 1)
    (h2 : hasKeyRow d2 k = false) :
    (diffCore d1 d2 cols eqv miss2 miss1 mism).filter (fun r => decide (r.key = k))
      = [miss2 k] := by
  obtain ⟨r0, hr0⟩ := List.length_eq_one.mp h1
  have hr0mem : r0 ∈ d1.rows.filter (fun r => decide (r.1 = k)) := by
    rw [hr0]
    exact List.mem_singleton.mpr rfl
  have hr0k : r0.1 = k := by
    have := (List.mem_filter.mp hr0mem).2
    simpa using this
  have hA : ((leftOnlyRows d1 d2).map (fun r => miss2 r.1)).filter
      (fun r => decide (r.key = k)) = [miss2 k] := by
    rw [List.filter_map]
    have hcong : (leftOnlyRows d1 d2).filter
          ((fun r => decide (r.key = k)) ∘ (fun r => miss2 r.1))
        = (leftOnlyRows d1 d2).filter (fun r => decide (r.1 = k)) := by
      apply List.filter_congr
      intro r _
      simp [hm2]
    rw [hcong, leftOnlyRows, List.filter_filter]
    have hcong2 : d1.rows.filter (fun r => decide (r.1 = k) && !hasKeyRow d2 r.1)
        = d1.rows.filter (fun r => decide (r.1 = k)) := by
      apply List.filter_congr
      intro r _
      by_cases hk : r.1 = k
      · simp [hk, h2]
      · simp [hk]
    rw [hcong2, hr0]
    simp [hr0k]
  have hB : ((rightOnlyRows d1 d2).map (fun r => miss1 r.1)).filter
      (fun r => decide (r.key = k)) = [] := by
    rw [List.filter_map]
    have hnil : (rightOnlyRows d1 d2).filter
        ((fun r => decide (r.key = k)) ∘ (fun r => miss1 r.1)) = [] := by
      apply List.filter_eq_nil_iff.mpr
      intro r hr
      have hrmem : r ∈ d2.rows := (List.mem_filter.mp hr).1
      simp only [Function.comp, hm1, decide_eq_true_eq]
      intro hk
      have hkey : hasKeyRow d2 k = true := by
        rw [← hk]
        exact hasKeyRow_true_of_mem hrmem
      rw [h2] at hkey
      cases hkey
    rw [hnil]
    rfl
  have hC : (flatMapL (fun c =>
      if decide (c ∈ d1.cols) && decide (c ∈ d2.cols) then
        (bothPairs d1 d2).filterMap (fun p =>
          if eqv (rowCell p.1.2 c) (rowCell p.2.2 c) then none
          else some (mism p.1.1 c (rowCell p.1.2 c) (rowCell p.2.2 c)))
      else []) cols).filter (fun r => decide (r.key = k)) = [] := by
    rw [filter_flatMapL]
    apply flatMapL_eq_nil
    intro c _
    by_cases hpc : (decide (c ∈ d1.cols) && decide (c ∈ d2.cols)) = true
    · rw [if_pos hpc]
      apply List.filter_eq_nil_iff.mpr
      intro r hr
      rw [List.mem_filterMap] at hr
      obtain ⟨p, hp, hfp⟩ := hr
      obtain ⟨hp1, hp2, hpk⟩ := bothPairs_mem hp
      have hrkey : r.key = p.1.1 := by
        split at hfp
        · cases hfp
        · cases hfp
          exact hmm p.1.1 c _ _
      simp only [decide_eq_true_eq]
      intro hk
      have hkey : hasKeyRow d2 k = true := by
        rw [← hk, hrkey, ← hpk]
        exact hasKeyRow_true_of_mem hp2
      rw [h2] at hkey
      cases hkey
    · rw [if_neg hpc]
      rfl
  apply List.Perm.eq_singleton
  have hperm : List.Perm
      ((diffCore d1 d2 cols eqv miss2 miss1 mism).filter (fun r => decide (r.key = k)))
      ((diffRecsRaw d1 d2 cols eqv miss2 miss1 mism).filter (fun r => decide (r.key = k))) := by
    rw [diffCore]
    exact filter_sortBy_perm _ _ _
  refine hperm.trans ?_
  rw [diffRecsRaw, List.filter_append, List.filter_append, hA, hB, hC]
  simp

/-- Mirror image of `diffCore_only_left` for a key present only in the
second table. -/
theorem diffCore_only_right (d1 d2 : DFrame) (cols : List String)
    (eqv : String → String → Bool) (miss2 miss1 : Key → DiffRec)
    (mism : Key → String → String → String → DiffRec) (k : Key)
    (hm2 : ∀ k2, (miss2 k2).key = k2)
    (hm1 : ∀ k2, (miss1 k2).key = k2)
    (hmm : ∀ k2 c v1 v2, (mism k2 c v1 v2).key = k2)
    (h1 : (d2.rows.filter (fun r => decide (r.1 = k))).length = 1)
    (h2 : hasKeyRow d1 k = false) :
    (diffCore d1 d2 cols eqv miss2 miss1 mism).filter (fun r => decide (r.key = k))
      = [miss1 k] := by
  obtain ⟨r0, hr0⟩ := List.length_eq_one.mp h1
  have hr0mem : r0 ∈ d2.rows.filter (fun r => decide (r.1 = k)) := by
    rw [hr0]
    exact List.mem_singleton.mpr rfl
  have hr0k : r0.1 = k := by
    have := (List.mem_filter.mp hr0mem).2
    simpa using this
  have hA : ((leftOnlyRows d1 d2).map (fun r => miss2 r.1)).filter
      (fun r => decide (r.key = k)) = [] := by
    rw [List.filter_map]
    have hnil : (leftOnlyRows d1 d2).filter
        ((fun r => decide (r.key = k)) ∘ (fun r => miss2 r.1)) = [] := by
      apply List.filter_eq_nil_iff.mpr
      intro r hr
      have hrmem : r ∈ d1.rows := (List.mem_filter.mp hr).1
      simp only [Function.comp, hm2, decide_eq_true_eq]
      intro hk
      have hkey : hasKeyRow d1 k = true := by
        rw [← hk]
        exact hasKeyRow_true_of_mem hrmem
      rw [h2] at hkey
      cases hkey
    rw [hnil]
    rfl
  have hB : ((rightOnlyRows d1 d2).map (fun r => miss1 r.1)).filter
      (fun r => decide (r.key = k)) = [miss1 k] := by
    rw [List.filter_map]
    have hcong : (rightOnlyRows d1 d2).filter
          ((fun r => decide (r.key = k)) ∘ (fun r => miss1 r.1))
        = (rightOnlyRows d1 d2).filter (fun r => decide (r.1 = k)) := by
      apply List.filter_congr
      intro r _
      simp [hm1]
    rw [hcong, rightOnlyRows, List.filter_filter]
    have hcong2 : d2.rows.filter (fun r => decide (r.1 = k) && !hasKeyRow d1 r.1)
        = d2.rows.filter (fun r => decide (r.1 = k)) := by
      apply List.filter_congr
      intro r _
      by_cases hk : r.1 = k
      · simp [hk, h2]
      · simp [hk]
    rw [hcong2, hr0]
    simp [hr0k]
  have hC : (flatMapL (fun c =>
      if decide (c ∈ d1.cols) && decide (c ∈ d2.cols) then
        (bothPairs d1 d2).filterMap (fun p =>
          if eqv (rowCell p.1.2 c) (rowCell p.2.2 c) then none
          else some (mism p.1.1 c (rowCell p.1.2 c) (rowCell p.2.2 c)))
      else []) cols).filter (fun r => decide (r.key = k)) = [] := by
    rw [filter_flatMapL]
    apply flatMapL_eq_nil
    intro c _
    by_cases hpc : (decide (c ∈ d1.cols) && decide (c ∈ d2.cols)) = true
    · rw [if_pos hpc]
      apply List.filter_eq_nil_iff.mpr
      intro r hr
      rw [List.mem_filterMap] at hr
      obtain ⟨p, hp, hfp⟩ := hr
      obtain ⟨hp1, hp2, hpk⟩ := bothPairs_mem hp
      have hrkey : r.key = p.1.1 := by
        split at hfp
        · cases hfp
        · cases hfp
          exact hmm p.1.1 c _ _
      simp only [decide_eq_true_eq]
      intro hk
      have hkey : hasKeyRow d1 k = true := by
        rw [← hk, hrkey]
        exact hasKeyRow_true_of_mem hp1
      rw [h2] at hkey
      cases hkey
    · rw [if_neg hpc]
      rfl
  apply List.Perm.eq_singleton
  have hperm : List.Perm
      ((diffCore d1 d2 cols eqv miss2 miss1 mism).filter (fun r => decide (r.key = k)))
      ((diffRecsRaw d1 d2 cols eqv miss2 miss1 mism).filter (fun r => decide (r.key = k))) := by
    rw [diffCore]
    exact filter_sortBy_perm _ _ _
  refine hperm.trans ?_
  rw [diffRecsRaw, List.filter_append, List.filter_append, hA, hB, hC]
  simp

/-! ## Claims about the Differ -/

/-- Claim C7: diffing a table against itself, with any tolerance >= 0
and either case-sensitivity setting, yields zero diff records — for
both differ variants.  The `dupFreeKeys` hypothesis is the data model's
precondition that the table is a row-set keyed by
(state, county, precinct): at most one row per trimmed identity key. -/
theorem c7_self_diff_empty (df : DFrame) (cc1 cc2 : Option (List String))
    (p1 p2 : String) (tol : PyNum) (cs : Bool)
    (hnd : dupFreeKeys df.stripKeys = true) (htol : pyLe ⟨0, 1⟩ tol = true) :
    diff_dataframes df df cc1 tol cs = [] ∧ diff_files p1 p2 df df cc2 tol cs = [] := by
  have hnd2 : (df.stripKeys).keyList.Nodup := of_decide_eq_true hnd
  constructor
  · exact diffCore_self_eq_nil _ _ _ _ _ _ hnd2 (fun v => values_equal_refl v tol cs)
  · exact diffCore_self_eq_nil _ _ _ _ _ _ hnd2 (fun v => compare_values_refl v tol cs)

theorem c7_self_diff_empty_witness :
    (dupFreeKeys w9F1.stripKeys = true ∧ pyLe ⟨0, 1⟩ ⟨0, 1⟩ = true)
    ∧ (diff_dataframes w9F1 w9F1 none ⟨0, 1⟩ false = []
       ∧ diff_files "f1.csv" "f2.csv" w9F1 w9F1 none ⟨0, 1⟩ false = []) :=
  ⟨⟨by decide, by decide⟩,
   c7_self_diff_empty w9F1 none none "f1.csv" "f2.csv" ⟨0, 1⟩ false (by decide) (by decide)⟩

/-- Claim C9: an identity key on exactly one row of file1 and on no row
of file2 yields exactly one diff record for that key — of type
`missing_in_file2`, with empty column and the sentinel values
ROW_PRESENT/ROW_MISSING — and in particular never a `value_mismatch`;
symmetrically, a key only in file2 yields one `missing_in_file1`
record.  Stated for both differ variants; hypotheses and record counts
are about the key-trimmed tables the engines actually merge. -/
theorem c9_missing_row_records (df1 df2 : DFrame) (cc1 cc2 : Option (List String))
    (p1 p2 : String) (tol : PyNum) (cs : Bool) (k : Key) :
    ((((df1.stripKeys).rows.filter (fun r => decide (r.1 = k))).length = 1
       → hasKeyRow df2.stripKeys k = false
       → (diff_dataframes df1 df2 cc1 tol cs).filter (fun r => decide (r.key = k))
             = [sMiss2 k]
         ∧ (diff_files p1 p2 df1 df2 cc2 tol cs).filter (fun r => decide (r.key = k))
             = [cliMiss2 p1 p2 k])
     ∧ ((((df2.stripKeys).rows.filter (fun r => decide (r.1 = k))).length = 1)
       → hasKeyRow df1.stripKeys k = false
       → (diff_dataframes df1 df2 cc1 tol cs).filter (fun r => decide (r.key = k))
             = [sMiss1 k]
         ∧ (diff_files p1 p2 df1 df2 cc2 tol cs).filter (fun r => decide (r.key = k))
             = [cliMiss1 p1 p2 k])) := by
  constructor
  · intro h1 h2
    constructor
    · exact diffCore_only_left _ _ _ _ _ _ _ k (fun k2 => rfl) (fun k2 => rfl)
        (fun k2 c v1 v2 => rfl) h1 h2
    · exact diffCore_only_left _ _ _ _ _ _ _ k (fun k2 => rfl) (fun k2 => rfl)
        (fun k2 c v1 v2 => rfl) h1 h2
  · intro h1 h2
    constructor
    · exact diffCore_only_right _ _ _ _ _ _ _ k (fun k2 => rfl) (fun k2 => rfl)
        (fun k2 c v1 v2 => rfl) h1 h2
    · exact diffCore_only_right _ _ _ _ _ _ _ k (fun k2 => rfl) (fun k2 => rfl)
        (fun k2 c v1 v2 => rfl) h1 h2

theorem c9_missing_row_records_witness :
    (((w9F1.stripKeys).rows.filter (fun r => decide (r.1 = w9K1))).length = 1
      ∧ hasKeyRow w9F2.stripKeys w9K1 = false)
    ∧ ((diff_dataframes w9F1 w9F2 none ⟨0, 1⟩ false).filter
          (fun r => decide (r.key = w9K1)) = [sMiss2 w9K1]
       ∧ (diff_files "f1.csv" "f2.csv" w9F1 w9F2 none ⟨0, 1⟩ false).filter
          (fun r => decide (r.key = w9K1)) = [cliMiss2 "f1.csv" "f2.csv" w9K1]) :=
  ⟨⟨by decide, by decide⟩,
   (c9_missing_row_records w9F1 w9F2 none none "f1.csv" "f2.csv" ⟨0, 1⟩ false w9K1).1
     (by decide) (by decide)⟩

theorem ballots_cast_not_in_sCompareCols (d1 d2 : DFrame) (cc : Option (List String)) :
    "ballots_cast" ∉ sCompareCols d1 d2 cc := by
  intro h
  simp only [sCompareCols] at h
  rw [mem_sortBy] at h
  have := (List.mem_filter.mp h).2
  simp at this

/-- No record of the diff skeleton carries a column name outside
`cols` (missing-row records carry `""`). -/
theorem diffCore_filter_column_eq_nil (d1 d2 : DFrame) (cols : List String)
    (eqv : String → String → Bool) (miss2 miss1 : Key → DiffRec)
    (mism : Key → String → String → String → DiffRec) (cbad : String)
    (hm2 : ∀ k2, (miss2 k2).column = "") (hm1 : ∀ k2, (miss1 k2).column = "")
    (hmm : ∀ k2 c v1 v2, (mism k2 c v1 v2).column = c)
    (hbad : cbad ∉ cols) (hne : cbad ≠ "") :
    (diffCore d1 d2 cols eqv miss2 miss1 mism).filter
      (fun r => decide (r.column = cbad)) = [] := by
  have hraw : (diffRecsRaw d1 d2 cols eqv miss2 miss1 mism).filter
      (fun r => decide (r.column = cbad)) = [] := by
    rw [diffRecsRaw, List.filter_append, List.filter_append, filter_flatMapL]
    have hA : ((leftOnlyRows d1 d2).map (fun r => miss2 r.1)).filter
        (fun r => decide (r.column = cbad)) = [] := by
      apply List.filter_eq_nil_iff.mpr
      intro r hr
      rw [List.mem_map] at hr
      obtain ⟨r2, _, hr2⟩ := hr
      rw [← hr2]
      simp only [hm2, decide_eq_true_eq]
      exact fun hc => hne hc.symm
    have hB : ((rightOnlyRows d1 d2).map (fun r => miss1 r.1)).filter
        (fun r => decide (r.column = cbad)) = [] := by
      apply List.filter_eq_nil_iff.mpr
      intro r hr
      rw [List.mem_map] at hr
      obtain ⟨r2, _, hr2⟩ := hr
      rw [← hr2]
      simp only [hm1, decide_eq_true_eq]
      exact fun hc => hne hc.symm
    have hC : flatMapL (fun c =>
        (if decide (c ∈ d1.cols) && decide (c ∈ d2.cols) then
          (bothPairs d1 d2).filterMap (fun p =>
            if eqv (rowCell p.1.2 c) (rowCell p.2.2 c) then none
            else some (mism p.1.1 c (rowCell p.1.2 c) (rowCell p.2.2 c)))
        else []).filter (fun r => decide (r.column = cbad))) cols = [] := by
      apply flatMapL_eq_nil
      intro c hc
      by_cases hpc : (decide (c ∈ d1.cols) && decide (c ∈ d2.cols)) = true
      · rw [if_pos hpc]
        apply List.filter_eq_nil_iff.mpr
        intro r hr
        rw [List.mem_filterMap] at hr
        obtain ⟨p, hp, hfp⟩ := hr
        have hcol : r.column = c := by
          split at hfp
          · cases hfp
          · cases hfp
            exact hmm p.1.1 c _ _
        simp only [hcol, decide_eq_true_eq]
        intro hcc
        exact hbad (hcc ▸ hc)
      · rw [if_neg hpc]
        rfl
    rw [hA, hB, hC]
    rfl
  have hperm : List.Perm
      ((diffCore d1 d2 cols eqv miss2 miss1 mism).filter (fun r => decide (r.column = cbad)))
      ((diffRecsRaw d1 d2 cols eqv miss2 miss1 mism).filter (fun r => decide (r.column = cbad))) := by
    rw [diffCore]
    exact filter_sortBy_perm _ _ _
  rw [hraw] at hperm
  exact hperm.eq_nil

/-- Claim C10: `diff_dataframes` never compares `ballots_cast`: for
every pair of inputs and every compare-column selection (including one
that explicitly lists it), no emitted record carries that column. -/
theorem c10_ballots_cast_never_compared (df1 df2 : DFrame) (cc : Option (List String))
    (tol : PyNum) (cs : Bool) :
    (diff_dataframes df1 df2 cc tol cs).filter
      (fun r => decide (r.column = "ballots_cast")) = [] := by
  apply diffCore_filter_column_eq_nil
  · intro k2
    rfl
  · intro k2
    rfl
  · intro k2 c v1 v2
    rfl
  · exact ballots_cast_not_in_sCompareCols _ _ _
  · decide

/-! ## Theorems: Combiner lemmas -/

theorem mem_mergedKeys {inp : CInputs} {k : Key} :
    k ∈ mergedKeys inp ↔ k ∈ allInputKeys inp := by
  rw [mergedKeys]
  exact mem_dedupFirst

theorem conflictRecsFor_key {inp : CInputs} {c : String} {k : Key} {r : ConflictRec}
    (h : r ∈ conflictRecsFor inp c k) : r.key = k := by
  rw [conflictRecsFor, List.mem_filterMap] at h
  obtain ⟨t, _, hf⟩ := h
  split at hf
  · split at hf
    · cases hf
    · cases hf
      rfl
  · cases hf

theorem reportKeys_subset_merged {inp : CInputs} {k : Key} (h : k ∈ reportKeys inp) :
    k ∈ mergedKeys inp := by
  rw [reportKeys, List.mem_map] at h
  obtain ⟨r, hr, hrk⟩ := h
  rw [conflictRows, mem_flatMapL] at hr
  obtain ⟨c, _, hr2⟩ := hr
  rw [mem_flatMapL] at hr2
  obtain ⟨k2, hk2, hr3⟩ := hr2
  split at hr3
  · have hkey := conflictRecsFor_key hr3
    rw [← hrk, hkey]
    exact hk2
  · cases hr3

theorem mem_out_iff_combinedKeys {inp : CInputs} {k : Key} :
    k ∈ (combined_output inp).map (fun r => r.1) ↔ k ∈ combinedKeys inp := by
  simp [combined_output, List.mem_map, mem_sortBy]

theorem mem_report_iff_reportKeys {inp : CInputs} {k : Key} :
    k ∈ (conflictReport inp).map (fun r => r.key) ↔ k ∈ reportKeys inp := by
  simp [conflictReport, reportKeys, List.mem_map, mem_sortBy]

/-! ## Claims about the Combiner -/

/-- Claim C2: the identity keys of the combined output together with
those of the conflict report are exactly the keys appearing in any
input row-set.  `wellKeyed` is the keyed-row-set data-model
precondition under which the per-key embedding of the pandas merge is
faithful. -/
theorem c2_key_completeness (inp : CInputs) (hw : wellKeyed inp = true) (k : Key) :
    (k ∈ (combined_output inp).map (fun r => r.1)
      ∨ k ∈ (conflictReport inp).map (fun r => r.key))
    ↔ k ∈ allInputKeys inp := by
  rw [mem_out_iff_combinedKeys, mem_report_iff_reportKeys]
  constructor
  · rintro (h | h)
    · exact mem_mergedKeys.mp (List.mem_filter.mp h).1
    · exact mem_mergedKeys.mp (reportKeys_subset_merged h)
  · intro h
    by_cases hr : k ∈ reportKeys inp
    · exact Or.inr hr
    · refine Or.inl ?_
      rw [combinedKeys, List.mem_filter]
      exact ⟨mem_mergedKeys.mpr h, by simp [hr]⟩

theorem c2_key_completeness_witness :
    wellKeyed c1Inp = true
    ∧ ((c1K2 ∈ (combined_output c1Inp).map (fun r => r.1)
        ∨ c1K2 ∈ (conflictReport c1Inp).map (fun r => r.key))
      ↔ c1K2 ∈ allInputKeys c1Inp) :=
  ⟨by decide, c2_key_completeness c1Inp (by decide) c1K2⟩

/-- Claim C3: no identity key is both in the combined output and in the
conflict report, and a reported key is excluded from the combined
output whole — no row for it exists at all, not merely a blanked
column. -/
theorem c3_conflict_exclusivity (inp : CInputs) (hw : wellKeyed inp = true) (k : Key) :
    ¬(k ∈ (combined_output inp).map (fun r => r.1)
        ∧ k ∈ (conflictReport inp).map (fun r => r.key))
    ∧ (k ∈ (conflictReport inp).map (fun r => r.key)
        → (combined_output inp).filter (fun r => decide (r.1 = k)) = []) := by
  constructor
  · rintro ⟨h1, h2⟩
    have h1b := mem_out_iff_combinedKeys.mp h1
    have h2b := mem_report_iff_reportKeys.mp h2
    have := (List.mem_filter.mp h1b).2
    simp [h2b] at this
  · intro h2
    have h2b := mem_report_iff_reportKeys.mp h2
    apply List.filter_eq_nil_iff.mpr
    intro r hr
    rw [combined_output, List.mem_map] at hr
    obtain ⟨k2, hk2, hrk⟩ := hr
    rw [mem_sortBy] at hk2
    have hk2n : k2 ∉ reportKeys inp := by
      have := (List.mem_filter.mp hk2).2
      simpa using this
    rw [← hrk]
    simp only [decide_eq_true_eq]
    intro hke
    exact hk2n (by rw [hke]; exact h2b)

theorem c3_conflict_exclusivity_witness :
    wellKeyed (c4Inp VType.total VType.mailin "100" "105") = true
    ∧ (¬(c4Key ∈ (combined_output (c4Inp VType.total VType.mailin "100" "105")).map (fun r => r.1)
          ∧ c4Key ∈ (conflictReport (c4Inp VType.total VType.mailin "100" "105")).map (fun r => r.key))
       ∧ (c4Key ∈ (conflictReport (c4Inp VType.total VType.mailin "100" "105")).map (fun r => r.key)
          → (combined_output (c4Inp VType.total VType.mailin "100" "105")).filter
              (fun r => decide (r.1 = c4Key)) = [])) :=
  ⟨by decide, c3_conflict_exclusivity (c4Inp VType.total VType.mailin "100" "105") (by decide) c4Key⟩

/-- Claim C4: two inputs carrying `registered_voters` "100" and "105"
for the same key produce exactly two conflict records for that key and
field (one per source value, with provenance) and the key is dropped
from the combined output; values "100" and "" raise no conflict and
coalesce to "100". -/
theorem c4_conflict_correctness (t1 t2 : VType) (h : t1 ≠ t2) :
    (conflictRows (c4Inp t1 t2 "100" "105")).length = 2
    ∧ (⟨c4Key, "registered_voters", typeName t1, "registered_voters__from_" ++ typeName t1,
        "in_" ++ typeName t1 ++ ".csv", "100"⟩ : ConflictRec)
        ∈ conflictRows (c4Inp t1 t2 "100" "105")
    ∧ (⟨c4Key, "registered_voters", typeName t2, "registered_voters__from_" ++ typeName t2,
        "in_" ++ typeName t2 ++ ".csv", "105"⟩ : ConflictRec)
        ∈ conflictRows (c4Inp t1 t2 "100" "105")
    ∧ c4Key ∉ (combined_output (c4Inp t1 t2 "100" "105")).map (fun r => r.1)
    ∧ conflictRows (c4Inp t1 t2 "100" "") = []
    ∧ combinedValue (c4Inp t1 t2 "100" "") "registered_voters" c4Key = "100" := by
  cases t1 <;> cases t2 <;> first | exact absurd rfl h | decide

theorem c4_conflict_correctness_witness :
    VType.early ≠ VType.mailin
    ∧ ((conflictRows (c4Inp VType.early VType.mailin "100" "105")).length = 2
      ∧ (⟨c4Key, "registered_voters", typeName VType.early,
          "registered_voters__from_" ++ typeName VType.early,
          "in_" ++ typeName VType.early ++ ".csv", "100"⟩ : ConflictRec)
          ∈ conflictRows (c4Inp VType.early VType.mailin "100" "105")
      ∧ (⟨c4Key, "registered_voters", typeName VType.mailin,
          "registered_voters__from_" ++ typeName VType.mailin,
          "in_" ++ typeName VType.mailin ++ ".csv", "105"⟩ : ConflictRec)
          ∈ conflictRows (c4Inp VType.early VType.mailin "100" "105")
      ∧ c4Key ∉ (combined_output (c4Inp VType.early VType.mailin "100" "105")).map (fun r => r.1)
      ∧ conflictRows (c4Inp VType.early VType.mailin "100" "") = []
      ∧ combinedValue (c4Inp VType.early VType.mailin "100" "") "registered_voters" c4Key = "100") :=
  ⟨by decide, c4_conflict_correctness VType.early VType.mailin (by decide)⟩

/-- Claim C1 (code bug in `coalesce_first_nonempty`): with the `total`
input carrying the `overall_turnout` column but no row for key P2 and
the `early` input carrying the non-empty value "7" there, the combined
value is `""`, not "7".  The NaN the outer merge leaves in the
higher-priority variant renders as the string "nan" under
`astype(str)`, so the `str.len() > 0` guard keeps it and `fillna("")`
writes it out empty — blocking every lower-priority value.  The spec's
stated rule, `coalesce_spec` (a source in which the key or column is
absent counts as having no value), yields "7" from the same cells. -/
theorem c1_coalesce_absent_key_divergence :
    combinedValue c1Inp "overall_turnout" c1K2 = ""
    ∧ mergedCellFrom c1Inp VType.total "overall_turnout" c1K2 = none
    ∧ mergedCellFrom c1Inp VType.early "overall_turnout" c1K2 = some "7"
    ∧ coalesce_spec ((variantsFor c1Inp "overall_turnout").map
        (fun t => mergedCellFrom c1Inp t "overall_turnout" c1K2)) = "7" :=
  ⟨by decide, by decide, by decide, by decide⟩

theorem mem_allVTypes (t : VType) : t ∈ allVTypes := by
  cases t <;> simp [allVTypes]

theorem validateOne_isSome_left {t : VType} {f : RawInput} {c : String}
    (hc : c ∈ ID_COLS) (hnc : c ∉ f.cols) : (validateOne t f).isSome := by
  have hfind : (ID_COLS.find? (fun c2 => !(decide (c2 ∈ f.cols)))).isSome := by
    rw [List.find?_isSome]
    exact ⟨c, hc, by simp [hnc]⟩
  obtain ⟨c2, hc2⟩ := Option.isSome_iff_exists.mp hfind
  rw [validateOne, hc2]
  rfl

theorem validateOne_isSome_triplet {t : VType} {f : RawInput} {c : String}
    (hc : c ∈ VTYPE_TO_COLS t) (hnc : c ∉ f.cols) : (validateOne t f).isSome := by
  rw [validateOne]
  cases hfind : ID_COLS.find? (fun c2 => !(decide (c2 ∈ f.cols))) with
  | some c2 => rfl
  | none =>
    have hmem : c ∈ (VTYPE_TO_COLS t).filter (fun c2 => !(decide (c2 ∈ f.cols))) := by
      rw [List.mem_filter]
      exact ⟨hc, by simp [hnc]⟩
    have hne : ((VTYPE_TO_COLS t).filter (fun c2 => !(decide (c2 ∈ f.cols)))).isEmpty = false := by
      cases hl : (VTYPE_TO_COLS t).filter (fun c2 => !(decide (c2 ∈ f.cols))) with
      | nil =>
        rw [hl] at hmem
        cases hmem
      | cons a l => rfl
    simp [hne]

theorem combine_error_of_validate {inp : CInputs} {t : VType} {f : RawInput}
    (hf : inp t = some f) (hv : (validateOne t f).isSome) :
    ∃ e, combine_main inp = Except.error e := by
  have hts : t ∈ suppliedTypes inp := by
    rw [suppliedTypes, List.mem_filter]
    exact ⟨mem_allVTypes t, by simp [hf]⟩
  have hne : (suppliedTypes inp).isEmpty = false := by
    cases hl : suppliedTypes inp with
    | nil =>
      rw [hl] at hts
      cases hts
    | cons a l => rfl
  have hfs : (List.findSome?
      (fun t2 => match inp t2 with | some f2 => validateOne t2 f2 | none => none)
      (suppliedTypes inp)).isSome := by
    apply findSome?_isSome_of_mem hts
    simpa [hf] using hv
  obtain ⟨e, he⟩ := Option.isSome_iff_exists.mp hfs
  refine ⟨e, ?_⟩
  simp [combine_main, hne, he]

/-- Claim C8: a run with zero supplied vote-type inputs, or any supplied
input missing an identity column or one of its own triplet columns, is
a fatal configuration error: `combine_main` returns the error (whose
message names the offending file and column) and, by construction of
the `Except`, neither the combined output nor the conflict report is
produced. -/
theorem c8_fatal_validation (inp : CInputs) :
    ((∀ t, inp t = none) → combine_main inp = Except.error "No input files provided!")
    ∧ (∀ t f c, inp t = some f → c ∈ ID_COLS → c ∉ f.cols
        → ∃ e, combine_main inp = Except.error e)
    ∧ (∀ t f c, inp t = some f → c ∈ VTYPE_TO_COLS t → c ∉ f.cols
        → ∃ e, combine_main inp = Except.error e) := by
  refine ⟨?_, ?_, ?_⟩
  · intro h
    have hsup : suppliedTypes inp = [] := by
      rw [suppliedTypes]
      apply List.filter_eq_nil_iff.mpr
      intro t _
      simp [h t]
    simp [combine_main, hsup]
  · intro t f c hf hc hnc
    exact combine_error_of_validate hf (validateOne_isSome_left hc hnc)
  · intro t f c hf hc hnc
    exact combine_error_of_validate hf (validateOne_isSome_triplet hc hnc)

theorem c8_fatal_validation_witness :
    combine_main w8NoneInp = Except.error "No input files provided!"
    ∧ (∃ e, combine_main w8Inp = Except.error e) :=
  ⟨(c8_fatal_validation w8NoneInp).1 (fun t => rfl),
   (c8_fatal_validation w8Inp).2.1 VType.mailin w8BadIn "state" rfl (by decide) (by decide)⟩
